import Mathlib

/-!
Shallow embedding of the `unidad1_project` batch ETL pipeline
(`src/unidad1_project`): readers, transformers, writers and the
orchestrator, together with theorems checking the natural-language
specification against this embedding.

Conventions of the embedding:
* a pandas `DataFrame` chunk is a `Chunk`: an ordered header of named,
  dtype-tagged columns plus a list of rows, each row a list of cells;
* a cell is `Cell.na` (missing / NaN), a rational number, or a string
  (list of characters);
* Python exceptions become the `Err` error type through `Except`;
* the filesystem seen by a writer is the explicit state it mutates.
-/

namespace Unidad1

/-- A single table cell: missing (`na`, pandas NaN/None), a numeric value
(rationals stand in for Python floats), or a text value. -/
inductive Cell where
  | na : Cell
  | num : ℚ → Cell
  | str : List Char → Cell
deriving DecidableEq, Repr

/-- `true` exactly on missing cells (pandas `isnull`). -/
def Cell.isNA : Cell → Bool
  | .na => true
  | _ => false

/-- The pandas dtype of a column, reduced to what the pipeline inspects:
`select_dtypes(include='number')` picks `numeric` columns and
`select_dtypes(include='str')` picks `text` columns. -/
inductive Dtype where
  | numeric : Dtype
  | text : Dtype
  | other : Dtype
deriving DecidableEq, Repr

/-- A row of a chunk: the cells in column order. -/
abbrev Row := List Cell

/-- An in-memory tabular chunk (a pandas `DataFrame`): an ordered list of
named, dtype-tagged columns and the rows, aligned by position. -/
structure Chunk where
  header : List (String × Dtype)
  rows : List Row
deriving DecidableEq, Repr

namespace Chunk

/-- The schema: ordered list of column names (`list(df.columns)`). -/
def colNames (c : Chunk) : List String := c.header.map Prod.fst

/-- Number of columns (`len(df.columns)`). -/
def ncols (c : Chunk) : Nat := c.header.length

/-- Cell at row `i`, column `j` (missing when out of range). -/
def cell (c : Chunk) (i j : Nat) : Cell := (c.rows.getD i []).getD j Cell.na

/-- Well-formedness: each row has exactly one cell per column
(the data-model invariant "all columns have equal length"). -/
def Wf (c : Chunk) : Prop := ∀ r ∈ c.rows, r.length = c.header.length

end Chunk

/-- Number of non-missing cells of a row (pandas' per-row non-NA count
used by `dropna`). -/
def nonNACount (r : Row) : Nat := r.countP (fun x => !x.isNA)

/-- Error taxonomy of the pipeline.  Every concrete component raises a
Python `ValueError` / `FileNotFoundError` etc.; the spec's taxonomy names
the cases, which the embedding keeps apart by constructor. -/
inductive Err where
  | invalidConfiguration : String → Err
  | notFound : String → Err
  | formatError : String → Err
  | columnNotFound : String → Err
  | schemaMismatch : List String → List String → Err
  | emptyData : String → Err
  | custom : String → Err
deriving DecidableEq, Repr

/-! ## Chunked CSV reading (`readers.py`, `CSVReaderPandas`) -/

/-- `CSVReaderPandas.__init__`: rejects a non-positive `chunk_size`
(`raise ValueError("The chunk_size must be a positive integer.")`). -/
def CSVReaderPandas.init (chunk_size : Int) : Except Err Int :=
  if chunk_size ≤ 0 then
    .error (.invalidConfiguration "The chunk_size must be a positive integer.")
  else
    .ok chunk_size

/-- Splitting a list of parsed data rows into consecutive chunks of
`csize` rows, the last possibly shorter: the iteration behaviour of
`pd.read_csv(file_path, chunksize=csize)` inside `CSVReaderPandas.read`. -/
def chunksOf (csize : Nat) (l : List α) : List (List α) :=
  if h : csize = 0 ∨ l.isEmpty then []
  else (l.take csize) :: chunksOf csize (l.drop csize)
termination_by l.length
decreasing_by
  push_neg at h
  obtain ⟨h0, hl⟩ := h
  have hne : l ≠ [] := by
    intro hemp
    rw [hemp] at hl
    simp at hl
  have : 0 < l.length := List.length_pos.mpr hne
  simp only [List.length_drop]
  omega

/-- `CSVReaderPandas.read` on an existing, delimiter-detectable CSV file:
the sequence of row blocks yielded by the chunked `pd.read_csv` iterator. -/
def CSVReaderPandas.read (csize : Nat) (rows : List Row) : List (List Row) :=
  chunksOf csize rows

theorem chunksOf_nil (csize : Nat) : chunksOf csize ([] : List α) = [] := by
  rw [chunksOf]
  simp

theorem chunksOf_cons_eq (csize : Nat) (l : List α) (h0 : csize ≠ 0) (hl : l ≠ []) :
    chunksOf csize l = l.take csize :: chunksOf csize (l.drop csize) := by
  rw [chunksOf]
  rw [dif_neg]
  push_neg
  refine ⟨h0, ?_⟩
  simp [hl]

theorem drop_length_lt_of_ne_nil {l : List α} {csize : Nat}
    (h0 : csize ≠ 0) (hl : l ≠ []) : (l.drop csize).length < l.length := by
  have : 0 < l.length := List.length_pos.mpr hl
  simp only [List.length_drop]
  omega

/-- Row counts of the chunks sum to the input row count. -/
theorem chunksOf_sum_lengths (csize : Nat) (h0 : csize ≠ 0) (l : List α) :
    ((chunksOf csize l).map List.length).sum = l.length := by
  by_cases hl : l = []
  · subst hl
    simp [chunksOf_nil]
  · rw [chunksOf_cons_eq csize l h0 hl]
    have := chunksOf_sum_lengths csize h0 (l.drop csize)
    simp only [List.map_cons, List.sum_cons, this, List.length_take, List.length_drop]
    omega
termination_by l.length
decreasing_by exact drop_length_lt_of_ne_nil h0 hl

/-- The number of chunks is `⌈R / csize⌉`. -/
theorem chunksOf_length (csize : Nat) (h0 : csize ≠ 0) (l : List α) :
    (chunksOf csize l).length = (l.length + csize - 1) / csize := by
  by_cases hl : l = []
  · subst hl
    rw [chunksOf_nil]
    simp only [List.length_nil]
    have : (0 + csize - 1) / csize = 0 := Nat.div_eq_of_lt (by omega)
    omega
  · rw [chunksOf_cons_eq csize l h0 hl]
    have hpos : 0 < l.length := List.length_pos.mpr hl
    have := chunksOf_length csize h0 (l.drop csize)
    simp only [List.length_cons, this, List.length_drop]
    rcases Nat.lt_or_ge l.length csize with hc | hc
    · have h1 : l.length - csize = 0 := by omega
      rw [h1]
      have h2 : (l.length + csize - 1) / csize = 1 :=
        Nat.div_eq_of_lt_le (by omega) (by omega)
      have h3 : (0 + csize - 1) / csize = 0 := Nat.div_eq_of_lt (by omega)
      omega
    · have h1 : l.length - csize + csize - 1 = l.length - 1 := by omega
      have h2 : l.length + csize - 1 = (l.length - 1) + csize := by omega
      rw [h1, h2, Nat.add_div_right _ (by omega)]
termination_by l.length
decreasing_by exact drop_length_lt_of_ne_nil h0 hl

/-- Every chunk except the last has exactly `csize` rows. -/
theorem chunksOf_full (csize : Nat) (h0 : csize ≠ 0) (l : List α)
    (i : Nat) (hi : i + 1 < (chunksOf csize l).length) :
    ((chunksOf csize l).getD i []).length = csize := by
  by_cases hl : l = []
  · subst hl
    simp [chunksOf_nil] at hi
  · rw [chunksOf_cons_eq csize l h0 hl] at hi ⊢
    cases i with
    | zero =>
      simp only [List.getD_cons_zero, List.length_take]
      simp only [List.length_cons] at hi
      have htail : chunksOf csize (l.drop csize) ≠ [] := by
        intro hemp
        rw [hemp] at hi
        simp at hi
      have hdrop : l.drop csize ≠ [] := by
        intro hemp
        rw [hemp, chunksOf_nil] at htail
        exact htail rfl
      have : csize < l.length := by
        by_contra hge
        push_neg at hge
        exact hdrop (List.drop_eq_nil_of_le hge)
      omega
    | succ i =>
      simp only [List.length_cons] at hi
      have := chunksOf_full csize h0 (l.drop csize) i (by omega)
      simpa using this
termination_by l.length
decreasing_by exact drop_length_lt_of_ne_nil h0 hl

/-- The last chunk has `R mod csize` rows, or `csize` when `csize ∣ R`. -/
theorem chunksOf_last (csize : Nat) (h0 : csize ≠ 0) (l : List α) (hl : l ≠ []) :
    ((chunksOf csize l).getLast?.getD []).length =
      (if l.length % csize = 0 then csize else l.length % csize) := by
  rw [chunksOf_cons_eq csize l h0 hl]
  by_cases hdrop : l.drop csize = []
  · have hle : l.length ≤ csize := by
      by_contra hgt
      push_neg at hgt
      have : l.drop csize ≠ [] := by
        intro hemp
        have := List.drop_eq_nil_iff.mp hemp
        omega
      exact this hdrop
    rw [hdrop, chunksOf_nil]
    simp only [List.getLast?_singleton, Option.getD_some, List.length_take]
    have hpos : 0 < l.length := List.length_pos.mpr hl
    by_cases heq : l.length = csize
    · rw [heq]
      simp
    · have hltc : l.length < csize := by omega
      have hne0 : l.length % csize ≠ 0 := by
        rw [Nat.mod_eq_of_lt hltc]
        omega
      rw [if_neg hne0, Nat.mod_eq_of_lt hltc]
      omega
  · have hrec := chunksOf_last csize h0 (l.drop csize) hdrop
    have hne : chunksOf csize (l.drop csize) ≠ [] := by
      rw [chunksOf_cons_eq csize _ h0 hdrop]
      simp
    obtain ⟨b, t, hbt⟩ := List.exists_cons_of_ne_nil hne
    rw [hbt, List.getLast?_cons_cons, ← hbt, hrec]
    have hcle : csize ≤ l.length := by
      by_contra hgt
      push_neg at hgt
      exact hdrop (List.drop_eq_nil_of_le (by omega))
    simp only [List.length_drop]
    have hmod : (l.length - csize) % csize = l.length % csize := by
      conv_rhs => rw [← Nat.sub_add_cancel hcle]
      rw [Nat.add_mod_right]
    rw [hmod]
termination_by l.length
decreasing_by exact drop_length_lt_of_ne_nil h0 hl

/-- The `Nat` formula `(R + c - 1) / c` is the ceiling of the rational
`R / c`. -/
theorem natCeilDiv_eq_ceil (R c : Nat) (hc : c ≠ 0) :
    (((R + c - 1) / c : Nat) : ℤ) = ⌈(R : ℚ) / (c : ℚ)⌉ := by
  have hcpos : 0 < c := Nat.pos_of_ne_zero hc
  have hc0 : (0 : ℚ) < (c : ℚ) := by exact_mod_cast hcpos
  obtain ⟨n, hn⟩ : ∃ n, (R + c - 1) / c = n := ⟨_, rfl⟩
  rw [hn]
  obtain ⟨m, hm⟩ : ∃ m, n * c = m := ⟨_, rfl⟩
  have h1 : m ≤ R + c - 1 := by
    rw [← hm, ← hn]
    exact Nat.div_mul_le_self (R + c - 1) c
  have h2 : R + c - 1 < m + c := by
    rw [← hm, ← hn]
    exact Nat.lt_div_mul_add hcpos
  have hRle : R ≤ m := by omega
  have hmq : ((m : ℕ) : ℚ) = (n : ℚ) * c := by
    rw [← hm]
    push_cast
    ring
  symm
  rw [Int.ceil_eq_iff]
  constructor
  · push_cast
    rw [sub_lt_iff_lt_add, ← sub_lt_iff_lt_add, lt_div_iff₀ hc0]
    rcases Nat.eq_zero_or_pos n with h0 | hpos
    · rw [h0]
      push_cast
      nlinarith
    · have hcm : c ≤ m := by
        rw [← hm]
        exact Nat.le_mul_of_pos_left c hpos
      have hR1 : 1 ≤ R := by omega
      have h1q : (m : ℚ) ≤ (R : ℚ) + c - 1 := by
        have : ((R + c - 1 : ℕ) : ℚ) = (R : ℚ) + c - 1 := by
          rw [Nat.cast_sub (by omega)]
          push_cast
          ring
        rw [← this]
        exact_mod_cast h1
      have : ((n : ℚ) - 1) * c = (m : ℚ) - c := by
        rw [hmq]
        ring
      rw [this]
      linarith
  · rw [div_le_iff₀ hc0]
    push_cast
    rw [← hmq]
    exact_mod_cast hRle

/-- C3: for every `chunk_size ≥ 1` and every readable CSV input with
`R ≥ 1` data rows, the chunked CSV reader yields exactly `⌈R / chunk_size⌉`
chunks whose row counts sum to `R`; every chunk except possibly the last
has exactly `chunk_size` rows, and the last has `R mod chunk_size` rows
(or `chunk_size` when `R` is evenly divisible). -/
theorem csv_reader_chunk_counts (csize : Nat) (rows : List Row)
    (hc : 1 ≤ csize) (hR : 1 ≤ rows.length) :
    (CSVReaderPandas.read csize rows).length = (rows.length + csize - 1) / csize ∧
    (((CSVReaderPandas.read csize rows).length : ℤ) = ⌈(rows.length : ℚ) / (csize : ℚ)⌉) ∧
    ((CSVReaderPandas.read csize rows).map List.length).sum = rows.length ∧
    (∀ i, i + 1 < (CSVReaderPandas.read csize rows).length →
      ((CSVReaderPandas.read csize rows).getD i []).length = csize) ∧
    ((CSVReaderPandas.read csize rows).getLast?.getD []).length =
      (if rows.length % csize = 0 then csize else rows.length % csize) := by
  have h0 : csize ≠ 0 := by omega
  have hne : rows ≠ [] := by
    intro hemp
    rw [hemp] at hR
    simp at hR
  refine ⟨chunksOf_length csize h0 rows, ?_, chunksOf_sum_lengths csize h0 rows,
    fun i hi => chunksOf_full csize h0 rows i hi, chunksOf_last csize h0 rows hne⟩
  rw [CSVReaderPandas.read, chunksOf_length csize h0 rows]
  exact natCeilDiv_eq_ceil rows.length csize h0

/-- Witness for C3 at `chunk_size = 2` on a concrete 5-row input. -/
theorem csv_reader_chunk_counts_witness :
    (1 ≤ 2 ∧ 1 ≤ ([[Cell.num 1], [Cell.num 2], [Cell.num 3], [Cell.num 4],
        [Cell.num 5]] : List Row).length) ∧
    ((CSVReaderPandas.read 2 [[Cell.num 1], [Cell.num 2], [Cell.num 3], [Cell.num 4],
        [Cell.num 5]]).length = 3 ∧
      ((CSVReaderPandas.read 2 [[Cell.num 1], [Cell.num 2], [Cell.num 3], [Cell.num 4],
        [Cell.num 5]]).getLast?.getD []).length = 1) := by
  have h := csv_reader_chunk_counts 2
    [[Cell.num 1], [Cell.num 2], [Cell.num 3], [Cell.num 4], [Cell.num 5]]
    (by decide) (by decide)
  obtain ⟨h1, _, _, _, h5⟩ := h
  refine ⟨⟨by decide, by decide⟩, ?_, ?_⟩
  · rw [h1]
    decide
  · rw [h5]
    decide

/-! ## Writers (`writers.py`) -/

/-- A CSV destination file as `WriterCsv` observes it: the header line
(the column names written at creation, and the only part
`_validate_columns` reads back via `pd.read_csv(file_path, nrows=0)`) and
the accumulated data rows. -/
structure CsvFile where
  header : List String
  rows : List Row
deriving DecidableEq, Repr

/-- `WriterCsv._validate_columns`: compares the destination's header with
the incoming frame's column list and raises on any difference in names or
order (`if list(existing_df.columns) != list(df.columns): raise
ValueError(...)`, reporting both schemas). -/
def WriterCsv.validate_columns (df : Chunk) (existing : CsvFile) : Except Err Unit :=
  if existing.header ≠ df.colNames then
    .error (.schemaMismatch existing.header df.colNames)
  else
    .ok ()

/-- `WriterCsv.write`: creates the file (header plus rows) when the path
does not exist; otherwise validates the columns and appends the rows
without a header (`to_csv(mode="a", header=not file_exists)`). -/
def WriterCsv.write (df : Chunk) (file : Option CsvFile) : Except Err CsvFile :=
  match file with
  | none => .ok ⟨df.colNames, df.rows⟩
  | some f =>
    match WriterCsv.validate_columns df f with
    | .error e => .error e
    | .ok _ => .ok ⟨f.header, f.rows ++ df.rows⟩

/-- One `WriterCsv.write` call as a filesystem transition.  The raise in
`_validate_columns` happens before `to_csv` runs, so on error the
destination file is left exactly as it was. -/
def WriterCsv.writeFS (df : Chunk) (file : Option CsvFile) :
    Option CsvFile × Option Err :=
  match WriterCsv.write df file with
  | .ok f => (some f, none)
  | .error e => (file, some e)

/-- C1: `WriterCsv.write` on an empty (non-existent) destination creates
the file containing exactly the input chunk's rows under its header; the
header of the destination is never changed by a successful append, so it
stays the schema of the first chunk ever written; and a write whose chunk
has different column names or order fails with `SchemaMismatch`
(reporting both schemas) and leaves the file contents unchanged. -/
theorem writer_csv_create_append_and_schema_guard (df : Chunk) :
    (WriterCsv.write df none = .ok ⟨df.colNames, df.rows⟩) ∧
    (∀ d : Chunk, ∀ f f' : CsvFile, WriterCsv.write d (some f) = .ok f' →
      f'.header = f.header) ∧
    (∀ d : Chunk, ∀ f : CsvFile, f.header ≠ d.colNames →
      WriterCsv.writeFS d (some f) =
        (some f, some (Err.schemaMismatch f.header d.colNames))) := by
  refine ⟨rfl, ?_, ?_⟩
  · intro d f f' h
    rw [WriterCsv.write] at h
    rw [WriterCsv.validate_columns] at h
    by_cases hne : f.header ≠ d.colNames
    · rw [if_pos hne] at h
      exact absurd h (by simp)
    · rw [if_neg hne] at h
      simp only [Except.ok.injEq] at h
      rw [← h]
  · intro d f hne
    rw [WriterCsv.writeFS, WriterCsv.write, WriterCsv.validate_columns, if_pos hne]

/-- Witness for C1: creating a one-column file, then attempting a write
with a different column name fails with `SchemaMismatch` and leaves the
file unchanged. -/
theorem writer_csv_create_append_and_schema_guard_witness :
    (WriterCsv.write ⟨[("a", Dtype.numeric)], [[Cell.num 1]]⟩ none =
      .ok ⟨["a"], [[Cell.num 1]]⟩) ∧
    (⟨["a"], [[Cell.num 1]]⟩ : CsvFile).header ≠
      (⟨[("b", Dtype.numeric)], [[Cell.num 2]]⟩ : Chunk).colNames ∧
    WriterCsv.writeFS ⟨[("b", Dtype.numeric)], [[Cell.num 2]]⟩
        (some ⟨["a"], [[Cell.num 1]]⟩) =
      (some ⟨["a"], [[Cell.num 1]]⟩, some (Err.schemaMismatch ["a"] ["b"])) := by
  obtain ⟨h1, _, h3⟩ :=
    writer_csv_create_append_and_schema_guard ⟨[("a", Dtype.numeric)], [[Cell.num 1]]⟩
  refine ⟨h1, by decide, ?_⟩
  exact h3 ⟨[("b", Dtype.numeric)], [[Cell.num 2]]⟩ ⟨["a"], [[Cell.num 1]]⟩ (by decide)

/-- A line of a JSON-lines destination file, abstracted to what
`WriterJson._validate_columns` extracts from it: `blank` is a line whose
content strips to the empty string (`not first_line.strip()`), and
`record` is a serialized JSON object, kept as its ordered key list and
cell values (`json.dumps` of one row). -/
inductive JsonLine where
  | blank : List Char → JsonLine
  | record : List String → Row → JsonLine
deriving DecidableEq, Repr

/-- `WriterJson._validate_columns`: returns silently when the file does
not exist or its first line is empty/whitespace-only; otherwise parses the
first record's keys and raises on any difference with the incoming
frame's columns. -/
def WriterJson.validate_columns (df : Chunk) (file : Option (List JsonLine)) :
    Except Err Unit :=
  match file with
  | none => .ok ()
  | some lines =>
    match lines.head? with
    | none => .ok ()
    | some (.blank _) => .ok ()
    | some (.record keys _) =>
      if df.colNames ≠ keys then .error (.schemaMismatch keys df.colNames)
      else .ok ()

/-- `WriterJson.write`: validates the columns when the file exists, then
appends one JSON record line per row of the frame. -/
def WriterJson.write (df : Chunk) (file : Option (List JsonLine)) :
    Except Err (List JsonLine) :=
  match file with
  | none => .ok (df.rows.map (fun r => JsonLine.record df.colNames r))
  | some lines =>
    match WriterJson.validate_columns df (some lines) with
    | .error e => .error e
    | .ok _ => .ok (lines ++ df.rows.map (fun r => JsonLine.record df.colNames r))

/-- C9: if the JSON-lines destination exists but its first line is
empty or whitespace-only (or the file is empty), `WriterJson.write`
performs no schema comparison and appends the chunk unconditionally; no
`SchemaMismatch` (nor any other error) can be raised against such a
file, whatever the incoming chunk's columns are. -/
theorem writer_json_blank_first_line_skips_check (df : Chunk) (ws : List Char)
    (rest : List JsonLine) :
    (WriterJson.write df (some (JsonLine.blank ws :: rest)) =
      .ok ((JsonLine.blank ws :: rest) ++
        df.rows.map (fun r => JsonLine.record df.colNames r))) ∧
    (WriterJson.write df (some []) =
      .ok (df.rows.map (fun r => JsonLine.record df.colNames r))) ∧
    (∀ e : Err, WriterJson.write df (some (JsonLine.blank ws :: rest)) ≠ .error e) := by
  refine ⟨rfl, rfl, ?_⟩
  intro e h
  rw [WriterJson.write] at h
  simp only [WriterJson.validate_columns, List.head?_cons] at h
  exact absurd h (by simp)

/-! ## Orchestrator (`orchestrator.py`)

The embedded `run` is the upstream side of the merge conflict in
`orchestrator.py` (the variant with a transformer list folded by
`functools.reduce`), which is the one the rest of the package and its
tests use.  A transformer is consumed as a chunk-to-chunk function that
may raise; a writer as a transition on the destination state that may
raise; a reader's generator as the chunks it yields in order together
with the error, if any, that it raises after them. -/

/-- A transformer as `Orchestrator.run` consumes it. -/
abbrev TransformerFn := Chunk → Except Err Chunk

/-- The left fold of the transformer list over one chunk
(`reduce(lambda data, transformer: transformer.transform(data),
self._transformers, chunk)`); a raise anywhere aborts the fold. -/
def applyTransformers (ts : List TransformerFn) (chunk : Chunk) : Except Err Chunk :=
  match ts with
  | [] => .ok chunk
  | t :: rest =>
    match t chunk with
    | .error e => .error e
    | .ok c => applyTransformers rest c

/-- `Orchestrator.run` as a transition on the destination state `fs`:
for each chunk yielded by the reader, fold the transformers over it and
write the result; the first raise — from a transformer, the writer, or
the reader itself (`readError`, raised after its last yielded chunk) —
ends the loop with that error and the state reached so far. -/
def Orchestrator.run (ts : List TransformerFn) (w : Chunk → σ → Except Err σ)
    (chunks : List Chunk) (readError : Option Err) (fs : σ) : σ × Option Err :=
  match chunks with
  | [] => (fs, readError)
  | c :: cs =>
    match applyTransformers ts c with
    | .error e => (fs, some e)
    | .ok c' =>
      match w c' fs with
      | .error e => (fs, some e)
      | .ok fs' => Orchestrator.run ts w cs readError fs'

/-- A clean prefix of the loop only advances the state: afterwards the
run continues on the remaining chunks from the reached state. -/
theorem Orchestrator.run_append (ts : List TransformerFn)
    (w : Chunk → σ → Except Err σ) (done rest : List Chunk)
    (rerr : Option Err) (fs fs1 : σ)
    (h : Orchestrator.run ts w done none fs = (fs1, none)) :
    Orchestrator.run ts w (done ++ rest) rerr fs =
      Orchestrator.run ts w rest rerr fs1 := by
  induction done generalizing fs with
  | nil =>
    simp only [Orchestrator.run, Prod.mk.injEq] at h
    rw [List.nil_append, h.1]
  | cons c cs ih =>
    rw [List.cons_append]
    cases happ : applyTransformers ts c with
    | error e =>
      simp only [Orchestrator.run, happ] at h
      simp at h
    | ok c' =>
      cases hw : w c' fs with
      | error e =>
        simp only [Orchestrator.run, happ, hw] at h
        simp at h
      | ok fs' =>
        simp only [Orchestrator.run, happ, hw] at h ⊢
        exact ih fs' h

/-- C2: any error raised by the reader, a transformer, or the writer
during `Orchestrator.run` propagates to the caller unmodified (the very
same error) and immediately halts processing: whatever chunks remain
after the failing one are neither transformed nor written (the result
does not depend on them), and the destination keeps exactly the output
of the chunks written before the failure. -/
theorem orchestrator_error_propagation {σ : Type} (ts : List TransformerFn)
    (w : Chunk → σ → Except Err σ) (rerr : Option Err) (done : List Chunk)
    (c : Chunk) (cs : List Chunk) (fs fs1 : σ) (e : Err)
    (hpre : Orchestrator.run ts w done none fs = (fs1, none)) :
    (applyTransformers ts c = .error e →
      Orchestrator.run ts w (done ++ c :: cs) rerr fs = (fs1, some e)) ∧
    (∀ c', applyTransformers ts c = .ok c' → w c' fs1 = .error e →
      Orchestrator.run ts w (done ++ c :: cs) rerr fs = (fs1, some e)) ∧
    (Orchestrator.run ts w done (some e) fs = (fs1, some e)) := by
  refine ⟨?_, ?_, ?_⟩
  · intro ht
    rw [Orchestrator.run_append ts w done (c :: cs) rerr fs fs1 hpre]
    simp only [Orchestrator.run, ht]
  · intro c' ht hw
    rw [Orchestrator.run_append ts w done (c :: cs) rerr fs fs1 hpre]
    simp only [Orchestrator.run, ht, hw]
  · have := Orchestrator.run_append ts w done [] (some e) fs fs1 hpre
    rw [List.append_nil] at this
    rw [this, Orchestrator.run]

/-- Witness for C2: a pipeline whose single transformer accepts a
one-row chunk and rejects a two-row chunk, over the CSV writer; the
first chunk is written, the failure on the second chunk surfaces
unmodified, and the third chunk is never processed. -/
theorem orchestrator_error_propagation_witness :
    Orchestrator.run
      [fun c => if c.rows.length ≤ 1 then .ok c else .error (.custom "boom")]
      (fun c fs => (WriterCsv.write c fs).map some)
      [⟨[("a", Dtype.numeric)], [[Cell.num 1]]⟩,
       ⟨[("a", Dtype.numeric)], [[Cell.num 2], [Cell.num 3]]⟩,
       ⟨[("a", Dtype.numeric)], [[Cell.num 4]]⟩]
      none (none : Option CsvFile) =
    (some ⟨["a"], [[Cell.num 1]]⟩, some (Err.custom "boom")) := by
  have h := orchestrator_error_propagation
    [fun c => if c.rows.length ≤ 1 then .ok c else .error (.custom "boom")]
    (fun c fs => (WriterCsv.write c fs).map some)
    none
    [⟨[("a", Dtype.numeric)], [[Cell.num 1]]⟩]
    ⟨[("a", Dtype.numeric)], [[Cell.num 2], [Cell.num 3]]⟩
    [⟨[("a", Dtype.numeric)], [[Cell.num 4]]⟩]
    (none : Option CsvFile) (some ⟨["a"], [[Cell.num 1]]⟩) (Err.custom "boom")
    (by rfl)
  exact h.1 (by rfl)

/-! ## Text normalization (`transformers.py`, `TransformerNormalizeStrings`)

`data[column].str.strip().str.lower()` is embedded per cell: strip the
leading/trailing whitespace of the character list, then lowercase each
character. -/

/-- Python's `str.lower()` on one character (ASCII range, as
`Char.toLower`). -/
def pyLowerChar (c : Char) : Char := c.toLower

/-- Python's `str.lower()`. -/
def pyLower (s : List Char) : List Char := s.map pyLowerChar

/-- Leading-whitespace strip. -/
def pyStripL (s : List Char) : List Char := s.dropWhile Char.isWhitespace

/-- Trailing-whitespace strip. -/
def pyStripR (s : List Char) : List Char :=
  (s.reverse.dropWhile Char.isWhitespace).reverse

/-- Python's `str.strip()`: drop whitespace at both ends. -/
def pyStrip (s : List Char) : List Char := pyStripR (pyStripL s)

/-- `str.strip().lower()`, the per-value normalization applied to text
columns. -/
def normStr (s : List Char) : List Char := pyLower (pyStrip s)

theorem char_toNat_ofNat_valid {n : Nat} (h : n.isValidChar) :
    (Char.ofNat n).toNat = n := by
  rw [Char.ofNat, dif_pos h]
  rfl

theorem char_eq_of_toNat_eq {a b : Char} (h : a.toNat = b.toNat) : a = b := by
  apply Char.ext
  exact UInt32.toNat.inj h

theorem char_toLower_of_upper {c : Char} (h : c.toNat ≥ 65 ∧ c.toNat ≤ 90) :
    c.toLower.toNat = c.toNat + 32 := by
  rw [Char.toLower]
  simp only [ge_iff_le]
  rw [if_pos]
  · exact char_toNat_ofNat_valid (Or.inl (by omega))
  · exact ⟨h.1, h.2⟩

theorem char_toLower_of_not_upper {c : Char} (h : ¬(c.toNat ≥ 65 ∧ c.toNat ≤ 90)) :
    c.toLower = c := by
  rw [Char.toLower]
  simp only [ge_iff_le]
  rw [if_neg]
  exact fun hc => h ⟨hc.1, hc.2⟩

theorem char_toLower_toLower (c : Char) : c.toLower.toLower = c.toLower := by
  by_cases h : c.toNat ≥ 65 ∧ c.toNat ≤ 90
  · have h1 := char_toLower_of_upper h
    rw [char_toLower_of_not_upper]
    omega
  · rw [char_toLower_of_not_upper h, char_toLower_of_not_upper h]

theorem char_isWhitespace_iff (c : Char) :
    c.isWhitespace = true ↔
      (c.toNat = 32 ∨ c.toNat = 9 ∨ c.toNat = 13 ∨ c.toNat = 10) := by
  rw [Char.isWhitespace]
  simp only [Bool.or_eq_true, decide_eq_true_eq]
  constructor
  · rintro (((h | h) | h) | h) <;> rw [h] <;> simp [Char.toNat]
  · rintro (h | h | h | h)
    · exact Or.inl (Or.inl (Or.inl (char_eq_of_toNat_eq (by rw [h]; rfl))))
    · exact Or.inl (Or.inl (Or.inr (char_eq_of_toNat_eq (by rw [h]; rfl))))
    · exact Or.inl (Or.inr (char_eq_of_toNat_eq (by rw [h]; rfl)))
    · exact Or.inr (char_eq_of_toNat_eq (by rw [h]; rfl))

theorem char_isWhitespace_toLower (c : Char) :
    c.toLower.isWhitespace = c.isWhitespace := by
  by_cases h : c.toNat ≥ 65 ∧ c.toNat ≤ 90
  · have h1 := char_toLower_of_upper h
    have hc : c.isWhitespace = false := by
      rw [Bool.eq_false_iff]
      intro hw
      rw [char_isWhitespace_iff] at hw
      omega
    have hl : c.toLower.isWhitespace = false := by
      rw [Bool.eq_false_iff]
      intro hw
      rw [char_isWhitespace_iff] at hw
      omega
    rw [hc, hl]
  · rw [char_toLower_of_not_upper h]

theorem dropWhile_dropWhile (p : α → Bool) (l : List α) :
    (l.dropWhile p).dropWhile p = l.dropWhile p := by
  induction l with
  | nil => rfl
  | cons a t ih =>
    by_cases h : p a
    · rw [List.dropWhile_cons_of_pos h, ih]
    · rw [List.dropWhile_cons_of_neg h, List.dropWhile_cons_of_neg h]

theorem dropWhile_map_comm (f : α → α) (p : α → Bool)
    (hp : ∀ x, p (f x) = p x) (l : List α) :
    (l.map f).dropWhile p = (l.dropWhile p).map f := by
  induction l with
  | nil => rfl
  | cons a t ih =>
    rw [List.map_cons]
    by_cases h : p a
    · rw [List.dropWhile_cons_of_pos (by rw [hp]; exact h),
        List.dropWhile_cons_of_pos h, ih]
    · rw [List.dropWhile_cons_of_neg (by rw [hp]; simpa using h),
        List.dropWhile_cons_of_neg h, List.map_cons]

theorem pyStripL_pyStripL (l : List Char) : pyStripL (pyStripL l) = pyStripL l :=
  dropWhile_dropWhile _ l

theorem pyStripR_pyStripR (l : List Char) : pyStripR (pyStripR l) = pyStripR l := by
  rw [pyStripR, pyStripR, List.reverse_reverse, dropWhile_dropWhile]

/-- `pyStripR l` is a prefix of `l`. -/
theorem pyStripR_append (l : List Char) :
    ∃ t, l = pyStripR l ++ t := by
  refine ⟨(l.reverse.takeWhile Char.isWhitespace).reverse, ?_⟩
  rw [pyStripR, ← List.reverse_append, List.takeWhile_append_dropWhile,
    List.reverse_reverse]

/-- A list with no leading whitespace keeps that property after
stripping its tail. -/
theorem pyStripL_pyStripR_of_stripped (u : List Char) (h : pyStripL u = u) :
    pyStripL (pyStripR u) = pyStripR u := by
  cases hv : pyStripR u with
  | nil => rfl
  | cons a v =>
    obtain ⟨t, ht⟩ := pyStripR_append u
    rw [hv] at ht
    have hna : Char.isWhitespace a = false := by
      by_contra hws
      rw [Bool.not_eq_false] at hws
      rw [ht, pyStripL, List.cons_append, List.dropWhile_cons_of_pos hws] at h
      have hlen := congrArg List.length h
      have hle : (List.dropWhile Char.isWhitespace (v ++ t)).length ≤ (v ++ t).length :=
        (List.dropWhile_sublist Char.isWhitespace).length_le
      simp only [List.length_cons] at hlen
      omega
    rw [pyStripL, List.dropWhile_cons_of_neg (by simp [hna])]

theorem pyStrip_pyStrip (l : List Char) : pyStrip (pyStrip l) = pyStrip l := by
  rw [pyStrip, pyStrip]
  rw [pyStripL_pyStripR_of_stripped (pyStripL l) (pyStripL_pyStripL l)]
  exact pyStripR_pyStripR (pyStripL l)

theorem pyLower_pyLower (l : List Char) : pyLower (pyLower l) = pyLower l := by
  rw [pyLower, pyLower, List.map_map]
  apply List.map_congr_left
  intro a _
  exact char_toLower_toLower a

theorem pyStripL_pyLower (l : List Char) :
    pyStripL (pyLower l) = pyLower (pyStripL l) :=
  dropWhile_map_comm pyLowerChar Char.isWhitespace char_isWhitespace_toLower l

theorem pyStripR_pyLower (l : List Char) :
    pyStripR (pyLower l) = pyLower (pyStripR l) := by
  rw [pyStripR, pyStripR, pyLower, pyLower, ← List.map_reverse,
    dropWhile_map_comm pyLowerChar Char.isWhitespace char_isWhitespace_toLower,
    List.map_reverse]

theorem pyStrip_pyLower (l : List Char) :
    pyStrip (pyLower l) = pyLower (pyStrip l) := by
  rw [pyStrip, pyStrip, pyStripL_pyLower, pyStripR_pyLower]

/-- Stripping then lowercasing is idempotent. -/
theorem normStr_normStr (s : List Char) : normStr (normStr s) = normStr s := by
  rw [normStr, normStr, pyStrip_pyLower, pyLower_pyLower, pyStrip_pyStrip]

/-- `.str.strip().str.lower()` on one cell: applied to string values; a
missing cell propagates (`NaN.str.strip()` is `NaN`). -/
def normCell : Cell → Cell
  | .str s => .str (normStr s)
  | c => c

/-- One row after `TransformerNormalizeStrings`: the cells of
string-dtype columns are normalized, the rest are untouched. -/
def normRow (header : List (String × Dtype)) (r : Row) : Row :=
  List.zipWith (fun (col : String × Dtype) c =>
    if col.2 = Dtype.text then normCell c else c) header r

/-- `TransformerNormalizeStrings.transform`: when
`select_dtypes(include='str')` finds no columns the chunk is returned
unchanged; otherwise each string-dtype column is replaced by its
stripped, lowercased values. -/
def TransformerNormalizeStrings.transform (data : Chunk) : Chunk :=
  if data.header.all (fun col => decide (col.2 ≠ Dtype.text)) then data
  else { data with rows := data.rows.map (normRow data.header) }

theorem normCell_normCell (c : Cell) : normCell (normCell c) = normCell c := by
  cases c with
  | na => rfl
  | num q => rfl
  | str s =>
    rw [normCell, normCell, normStr_normStr]

theorem normRow_normRow (header : List (String × Dtype)) (r : Row) :
    normRow header (normRow header r) = normRow header r := by
  induction header generalizing r with
  | nil => rfl
  | cons col hd ih =>
    cases r with
    | nil => rfl
    | cons c cr =>
      rw [normRow, normRow, List.zipWith_cons_cons, List.zipWith_cons_cons,
        ← normRow, ← normRow, ih]
      by_cases hcol : col.2 = Dtype.text
      · rw [if_pos hcol, if_pos hcol, normCell_normCell]
      · rw [if_neg hcol, if_neg hcol]

theorem normRow_nil (header : List (String × Dtype)) : normRow header [] = [] := by
  rw [normRow, List.zipWith_nil_right]

/-- Cell-level description of `normRow`. -/
theorem normRow_getD (header : List (String × Dtype)) (r : Row)
    (hlen : r.length = header.length ∨ r = []) (j : Nat) :
    (normRow header r).getD j Cell.na =
      (if (header.getD j ("", Dtype.other)).2 = Dtype.text
       then normCell (r.getD j Cell.na) else r.getD j Cell.na) := by
  induction header generalizing r j with
  | nil =>
    have hr : r = [] := by
      rcases hlen with h | h
      · exact List.length_eq_zero.mp h
      · exact h
    subst hr
    rw [normRow, List.zipWith_nil_left]
    simp [normCell]
  | cons col hd ih =>
    rcases hlen with h | h
    · cases r with
      | nil => simp at h
      | cons c cr =>
        rw [normRow, List.zipWith_cons_cons, ← normRow]
        cases j with
        | zero =>
          simp only [List.getD_cons_zero, List.getD_cons_zero]
        | succ j =>
          simp only [List.getD_cons_succ]
          exact ih cr (Or.inl (by simpa using h)) j
    · subst h
      rw [normRow, List.zipWith_nil_right]
      cases j with
      | zero => simp [normCell]
      | succ j => simp [normCell]

theorem getD_map_normRow (header : List (String × Dtype)) (rows : List Row)
    (i : Nat) :
    (rows.map (normRow header)).getD i [] = normRow header (rows.getD i []) := by
  rcases Nat.lt_or_ge i rows.length with h | h
  · rw [List.getD_eq_getElem?_getD, List.getElem?_map,
      List.getD_eq_getElem?_getD]
    rw [List.getElem?_eq_getElem h]
    simp
  · rw [List.getD_eq_getElem?_getD, List.getElem?_eq_none (by simpa using h),
      List.getD_eq_getElem?_getD, List.getElem?_eq_none h]
    simp [normRow_nil]

/-- C5: `NormalizeText` is idempotent, keeps the header and the row
count, leaves every non-text column byte-identical, replaces every cell
of every text-dtype column by its trimmed and lowercased value, and
passes a chunk through unchanged when it has no text column. -/
theorem normalize_text_properties (c : Chunk) :
    (TransformerNormalizeStrings.transform (TransformerNormalizeStrings.transform c) =
      TransformerNormalizeStrings.transform c) ∧
    ((TransformerNormalizeStrings.transform c).header = c.header) ∧
    ((TransformerNormalizeStrings.transform c).rows.length = c.rows.length) ∧
    (Chunk.Wf c → ∀ i j, (c.header.getD j ("", Dtype.other)).2 ≠ Dtype.text →
      (TransformerNormalizeStrings.transform c).cell i j = c.cell i j) ∧
    (Chunk.Wf c → ∀ i j, (c.header.getD j ("", Dtype.other)).2 = Dtype.text →
      (TransformerNormalizeStrings.transform c).cell i j = normCell (c.cell i j)) ∧
    ((∀ col ∈ c.header, col.2 ≠ Dtype.text) →
      TransformerNormalizeStrings.transform c = c) := by
  have hwf_getD : ∀ (c' : Chunk), Chunk.Wf c' → ∀ i : Nat,
      (c'.rows.getD i []).length = c'.header.length ∨ c'.rows.getD i [] = [] := by
    intro c' hwf i
    rcases Nat.lt_or_ge i c'.rows.length with h | h
    · left
      apply hwf
      rw [List.getD_eq_getElem?_getD, List.getElem?_eq_getElem h]
      simp only [Option.getD_some]
      exact List.getElem_mem h
    · right
      rw [List.getD_eq_getElem?_getD, List.getElem?_eq_none h]
      rfl
  by_cases hall : c.header.all (fun col => decide (col.2 ≠ Dtype.text)) = true
  · have hid : TransformerNormalizeStrings.transform c = c := by
      rw [TransformerNormalizeStrings.transform, if_pos hall]
    refine ⟨by rw [hid, hid], by rw [hid], by rw [hid], ?_, ?_, fun _ => hid⟩
    · intro _ i j _
      rw [hid]
    · intro hwf i j htext
      exfalso
      rcases Nat.lt_or_ge j c.header.length with hj | hj
      · have hmem : c.header.getD j ("", Dtype.other) ∈ c.header := by
          rw [List.getD_eq_getElem?_getD, List.getElem?_eq_getElem hj]
          simp only [Option.getD_some]
          exact List.getElem_mem hj
        have := List.all_eq_true.mp hall _ hmem
        rw [decide_eq_true_eq] at this
        exact this htext
      · rw [List.getD_eq_getElem?_getD, List.getElem?_eq_none (by simpa using hj)] at htext
        simp at htext
  · have htr : TransformerNormalizeStrings.transform c =
        { c with rows := c.rows.map (normRow c.header) } := by
      rw [TransformerNormalizeStrings.transform, if_neg hall]
    have htr2 : TransformerNormalizeStrings.transform
        { c with rows := c.rows.map (normRow c.header) } =
        { c with rows := (c.rows.map (normRow c.header)).map (normRow c.header) } := by
      rw [TransformerNormalizeStrings.transform]
      rw [if_neg hall]
    refine ⟨?_, by rw [htr], by rw [htr]; simp, ?_, ?_, ?_⟩
    · rw [htr, htr2]
      simp only [Chunk.mk.injEq, true_and]
      rw [List.map_map]
      apply List.map_congr_left
      intro r _
      exact normRow_normRow c.header r
    · intro hwf i j htext
      rw [htr, Chunk.cell, Chunk.cell]
      simp only
      rw [getD_map_normRow, normRow_getD c.header _ (hwf_getD c hwf i) j, if_neg htext]
    · intro hwf i j htext
      rw [htr, Chunk.cell, Chunk.cell]
      simp only
      rw [getD_map_normRow, normRow_getD c.header _ (hwf_getD c hwf i) j, if_pos htext]
    · intro hnone
      exfalso
      apply hall
      rw [List.all_eq_true]
      intro col hcol
      rw [decide_eq_true_eq]
      exact hnone col hcol

/-- Witness for C5 on a concrete two-column chunk with one text column. -/
theorem normalize_text_properties_witness :
    (Chunk.Wf ⟨[("name", Dtype.text), ("age", Dtype.numeric)],
        [[Cell.str "  Ada  ".data, Cell.num 36]]⟩ ∧
      ([("name", Dtype.text), ("age", Dtype.numeric)].getD 1
        ("", Dtype.other)).2 ≠ Dtype.text) ∧
    (TransformerNormalizeStrings.transform
        ⟨[("name", Dtype.text), ("age", Dtype.numeric)],
          [[Cell.str "  Ada  ".data, Cell.num 36]]⟩).cell 0 1 =
      (⟨[("name", Dtype.text), ("age", Dtype.numeric)],
          [[Cell.str "  Ada  ".data, Cell.num 36]]⟩ : Chunk).cell 0 1 := by
  have h := normalize_text_properties
    ⟨[("name", Dtype.text), ("age", Dtype.numeric)],
      [[Cell.str "  Ada  ".data, Cell.num 36]]⟩
  have hwf : Chunk.Wf ⟨[("name", Dtype.text), ("age", Dtype.numeric)],
      [[Cell.str "  Ada  ".data, Cell.num 36]]⟩ := by
    intro r hr
    simp only [List.mem_singleton] at hr
    subst hr
    rfl
  refine ⟨⟨hwf, by decide⟩, ?_⟩
  exact h.2.2.2.1 hwf 0 1 (by decide)

/-! ## Row-dropping transformers (`transformers.py`) -/

/-- `TransformerMissing.transform`: `data.dropna()` — removes every row
containing at least one missing cell. -/
def TransformerMissing.transform (data : Chunk) : Chunk :=
  { data with rows := data.rows.filter (fun r => r.all (fun x => !x.isNA)) }

/-- `TransformerMissingThreshold.__init__`: stores the threshold and
raises `ValueError` when it lies outside `[0.0, 1.0]`. -/
def TransformerMissingThreshold.init (threshold : ℚ) : Except Err ℚ :=
  if ¬(0 ≤ threshold ∧ threshold ≤ 1) then
    .error (.invalidConfiguration "Threshold must be between 0.0 and 1.0.")
  else
    .ok threshold

/-- `TransformerMissingThreshold.transform`:
`data.dropna(thresh=self._threshold * len(data.columns))` — pandas keeps
a row iff its non-missing cell count is at least `thresh` (an inclusive
comparison against the possibly fractional product). -/
def TransformerMissingThreshold.transform (threshold : ℚ) (data : Chunk) : Chunk :=
  { data with rows :=
      data.rows.filter (fun r => decide (threshold * (data.ncols : ℚ) ≤ (nonNACount r : ℚ))) }

/-- C6: `DropBelowThreshold` keeps exactly the rows whose count of
non-missing cells is at least `threshold × column_count` (inclusive
comparison), and `DropBelowThreshold(1.0)` coincides with
`DropIncomplete` on every well-formed chunk. -/
theorem drop_below_threshold_semantics (threshold : ℚ) (data : Chunk) :
    ((TransformerMissingThreshold.transform threshold data).header = data.header) ∧
    (∀ r : Row, r ∈ (TransformerMissingThreshold.transform threshold data).rows ↔
      (r ∈ data.rows ∧ threshold * (data.ncols : ℚ) ≤ (nonNACount r : ℚ))) ∧
    ((TransformerMissingThreshold.transform threshold data).rows.Sublist data.rows) ∧
    (Chunk.Wf data →
      TransformerMissingThreshold.transform 1 data = TransformerMissing.transform data) := by
  refine ⟨rfl, ?_, ?_, ?_⟩
  · intro r
    rw [TransformerMissingThreshold.transform]
    simp only [List.mem_filter, decide_eq_true_eq]
  · rw [TransformerMissingThreshold.transform]
    exact List.filter_sublist data.rows
  · intro hwf
    rw [TransformerMissingThreshold.transform, TransformerMissing.transform]
    simp only [Chunk.mk.injEq, true_and]
    apply List.filter_congr
    intro r hr
    have hlen : r.length = data.header.length := hwf r hr
    have hle : nonNACount r ≤ data.ncols := by
      rw [nonNACount, Chunk.ncols, ← hlen]
      exact List.countP_le_length _
    rcases Bool.eq_false_or_eq_true (r.all (fun x => !x.isNA)) with hall | hall
    · rw [hall]
      rw [decide_eq_true_eq, one_mul, Nat.cast_le]
      have := List.all_eq_true.mp hall
      have heq : nonNACount r = r.length := List.countP_eq_length.mpr this
      rw [Chunk.ncols, ← hlen, ← heq]
    · rw [hall]
      rw [decide_eq_false_iff_not]
      intro habs
      rw [one_mul, Nat.cast_le] at habs
      have heq : nonNACount r = data.ncols := le_antisymm hle habs
      rw [nonNACount, Chunk.ncols, ← hlen] at heq
      have := List.countP_eq_length.mp heq
      rw [Bool.eq_false_iff] at hall
      exact hall (List.all_eq_true.mpr this)

/-- Witness for C6 at `threshold = 1/2` on a concrete chunk, plus the
`1.0` equivalence on it. -/
theorem drop_below_threshold_semantics_witness :
    (([Cell.num 1, Cell.na] : Row) ∈
        (TransformerMissingThreshold.transform (1/2)
          ⟨[("a", Dtype.numeric), ("b", Dtype.numeric)],
            [[Cell.num 1, Cell.na], [Cell.na, Cell.na]]⟩).rows ↔
      (([Cell.num 1, Cell.na] : Row) ∈
          ([[Cell.num 1, Cell.na], [Cell.na, Cell.na]] : List Row) ∧
        (1/2 : ℚ) * ((2 : Nat) : ℚ) ≤ ((nonNACount [Cell.num 1, Cell.na] : Nat) : ℚ))) ∧
    TransformerMissingThreshold.transform 1
        ⟨[("a", Dtype.numeric), ("b", Dtype.numeric)],
          [[Cell.num 1, Cell.na], [Cell.na, Cell.na]]⟩ =
      TransformerMissing.transform
        ⟨[("a", Dtype.numeric), ("b", Dtype.numeric)],
          [[Cell.num 1, Cell.na], [Cell.na, Cell.na]]⟩ := by
  have h := drop_below_threshold_semantics (1/2)
    ⟨[("a", Dtype.numeric), ("b", Dtype.numeric)],
      [[Cell.num 1, Cell.na], [Cell.na, Cell.na]]⟩
  have h1 := drop_below_threshold_semantics 1
    ⟨[("a", Dtype.numeric), ("b", Dtype.numeric)],
      [[Cell.num 1, Cell.na], [Cell.na, Cell.na]]⟩
  refine ⟨h.2.1 [Cell.num 1, Cell.na], h1.2.2.2 ?_⟩
  intro r hr
  simp only [List.mem_cons, List.not_mem_nil, or_false] at hr
  rcases hr with hr | hr <;> subst hr <;> rfl

/-! ## Row filtering (`transformers.py`, `TransformerFilterRows`) -/

/-- The comparison value of a `TransformerFilterRows`: a scalar, or a
collection for the `in` / `not_in` operators. -/
inductive FilterValue where
  | scalar : Cell → FilterValue
  | coll : List Cell → FilterValue
deriving DecidableEq, Repr

/-- The configuration stored by `TransformerFilterRows.__init__`. -/
structure FilterRowsCfg where
  column : Option String
  operator : Option String
  value : FilterValue
  condition : Option (Chunk → List Bool)

/-- The supported operators of `TransformerFilterRows`. -/
def validOperators : List String :=
  ["==", "!=", ">", "<", ">=", "<=", "in", "not_in", "contains"]

/-- `TransformerFilterRows.__init__` and its validation order: neither
operator nor condition, operator without column, unsupported operator. -/
def TransformerFilterRows.init (column operator : Option String)
    (value : FilterValue) (condition : Option (Chunk → List Bool)) :
    Except Err FilterRowsCfg :=
  if condition.isNone ∧ operator.isNone then
    .error (.invalidConfiguration "Must provide either operator or condition")
  else if operator.isSome ∧ column.isNone then
    .error (.invalidConfiguration "Column must be specified when using operator")
  else if operator.isSome ∧ ¬ operator.getD "" ∈ validOperators then
    .error (.invalidConfiguration "Invalid operator.")
  else
    .ok ⟨column, operator, value, condition⟩

/-- Structural equality of a cell against a scalar value as pandas `==`
sees it: a missing cell equals nothing (`NaN == x` is `False`). -/
def cellEq : Cell → Cell → Bool
  | .na, _ => false
  | _, .na => false
  | .num a, .num b => a == b
  | .str a, .str b => a == b
  | _, _ => false

/-- pandas ordering of a cell against a scalar: numbers numerically,
strings lexicographically; a missing cell is unordered (`NaN < x` is
`False`), as is a kind mismatch. -/
def cellLt : Cell → Cell → Bool
  | .num a, .num b => decide (a < b)
  | .str a, .str b => decide (String.mk a < String.mk b)
  | _, _ => false

/-- Substring occurrence, the non-regex meaning of
`Series.str.contains`. -/
def strContainsSub (sub : List Char) : List Char → Bool
  | [] => sub.isEmpty
  | a :: t => sub.isPrefixOf (a :: t) || strContainsSub sub t

/-- The boolean mask entry for one row cell under one operator, as built
by the `if/elif` chain of `TransformerFilterRows.transform`.  The
`contains` row uses `.str.contains(value, na=False)`: a missing cell is
masked `False`.  (An operator outside `validOperators` never reaches
this point: `__init__` rejects it.) -/
def opMask (operator : String) (value : FilterValue) (c : Cell) : Bool :=
  match value with
  | .coll vs =>
    if operator = "in" then decide (c ∈ vs)
    else if operator = "not_in" then decide (c ∉ vs)
    else false
  | .scalar v =>
    if operator = "==" then cellEq c v
    else if operator = "!=" then !cellEq c v
    else if operator = ">" then cellLt v c
    else if operator = "<" then cellLt c v
    else if operator = ">=" then cellLt v c || cellEq c v
    else if operator = "<=" then cellLt c v || cellEq c v
    else if operator = "contains" then
      match c, v with
      | .str s, .str sub => strContainsSub sub s
      | _, _ => false
    else false

/-- Keep the rows whose mask entry is `true` (`data[mask]`). -/
def maskFilter (rows : List Row) (mask : List Bool) : List Row :=
  (rows.zip mask).filterMap (fun rm => if rm.2 then some rm.1 else none)

/-- The 0-based position of a named column (`data[column]` resolves the
first column with that name). -/
def colIndex (data : Chunk) (name : String) : Nat :=
  data.colNames.indexOf name

/-- `TransformerFilterRows.transform`: a custom condition builds the mask
from the whole frame; otherwise the configured column must exist
(`ValueError` if not) and the operator chain builds the mask from that
column.  A configuration with neither is unreachable through
`__init__`. -/
def TransformerFilterRows.transform (cfg : FilterRowsCfg) (data : Chunk) :
    Except Err Chunk :=
  match cfg.condition with
  | some f => .ok { data with rows := maskFilter data.rows (f data) }
  | none =>
    match cfg.column, cfg.operator with
    | some col, some op =>
      if col ∈ data.colNames then
        .ok { data with rows :=
          data.rows.filter (fun r => opMask op cfg.value (r.getD (colIndex data col) Cell.na)) }
      else
        .error (.columnNotFound ("Column " ++ col ++ " not found in DataFrame"))
    | _, _ => .error (.invalidConfiguration "Must provide either operator or condition")

/-- C10: with the `contains` operator, every row whose cell in the
filtered column is missing is removed — the missing cell counts as a
non-match (`na=False`), it raises no error and is never kept. -/
theorem filter_rows_contains_drops_missing (col : String) (v : FilterValue)
    (data : Chunk) (hcol : col ∈ data.colNames) :
    ∃ out : Chunk,
      TransformerFilterRows.transform ⟨some col, some "contains", v, none⟩ data = .ok out ∧
      out.header = data.header ∧
      (∀ r : Row, r ∈ out.rows → r ∈ data.rows ∧
        (r.getD (colIndex data col) Cell.na).isNA = false) ∧
      (∀ r : Row, r ∈ data.rows →
        (r.getD (colIndex data col) Cell.na).isNA = true → r ∉ out.rows) := by
  refine ⟨{ data with rows :=
      data.rows.filter (fun r => opMask "contains" v (r.getD (colIndex data col) Cell.na)) },
    ?_, rfl, ?_, ?_⟩
  · rw [TransformerFilterRows.transform]
    simp only [if_pos hcol]
  · intro r hr
    rw [List.mem_filter] at hr
    refine ⟨hr.1, ?_⟩
    have hm := hr.2
    by_contra hna
    rw [Bool.not_eq_false] at hna
    cases hc : r.getD (colIndex data col) Cell.na with
    | na =>
      rw [hc] at hm
      cases v with
      | scalar w =>
        cases w <;> simp [opMask] at hm
      | coll vs => simp [opMask] at hm
    | num q =>
      rw [hc] at hna
      simp [Cell.isNA] at hna
    | str s =>
      rw [hc] at hna
      simp [Cell.isNA] at hna
  · intro r _ hna hmem
    rw [List.mem_filter] at hmem
    have hm := hmem.2
    cases hc : r.getD (colIndex data col) Cell.na with
    | na =>
      rw [hc] at hm
      cases v with
      | scalar w =>
        cases w <;> simp [opMask] at hm
      | coll vs => simp [opMask] at hm
    | num q =>
      rw [hc] at hna
      simp [Cell.isNA] at hna
    | str s =>
      rw [hc] at hna
      simp [Cell.isNA] at hna

/-- Witness for C10: a two-row chunk whose second row has a missing text
cell; the filtered output drops that row. -/
theorem filter_rows_contains_drops_missing_witness :
    "t" ∈ (⟨[("t", Dtype.text)], [[Cell.str "ab".data], [Cell.na]]⟩ : Chunk).colNames ∧
    ∃ out : Chunk,
      TransformerFilterRows.transform
          ⟨some "t", some "contains", FilterValue.scalar (Cell.str "a".data), none⟩
          ⟨[("t", Dtype.text)], [[Cell.str "ab".data], [Cell.na]]⟩ = .ok out ∧
      ([Cell.na] : Row) ∉ out.rows := by
  have h := filter_rows_contains_drops_missing "t"
    (FilterValue.scalar (Cell.str "a".data))
    ⟨[("t", Dtype.text)], [[Cell.str "ab".data], [Cell.na]]⟩ (by decide)
  obtain ⟨out, hok, _, _, hdrop⟩ := h
  refine ⟨by decide, out, hok, ?_⟩
  exact hdrop [Cell.na] (by simp) (by decide)

/-! ## Column selection (`transformers.py`, `TransformerSelectColumns`) -/

/-- The mode of an initialized `TransformerSelectColumns`: keep exactly
the named columns, or drop them. -/
inductive SelectCfg where
  | select : List String → SelectCfg
  | dropCols : List String → SelectCfg
deriving DecidableEq, Repr

/-- `TransformerSelectColumns.__init__`: both parameters is an error,
neither is an error, otherwise the mode is fixed. -/
def TransformerSelectColumns.init (columns drop : Option (List String)) :
    Except Err SelectCfg :=
  match columns, drop with
  | some _, some _ =>
    .error (.invalidConfiguration "Cannot specify both 'columns' and 'drop' parameters")
  | none, none =>
    .error (.invalidConfiguration "Must specify either 'columns' or 'drop' parameter")
  | some cols, none => .ok (.select cols)
  | none, some ds => .ok (.dropCols ds)

/-- A row after the drop mode: the cells of the dropped columns are
removed, the rest keep their order. -/
def dropRowCells (header : List (String × Dtype)) (ds : List String) (r : Row) : Row :=
  ((header.zip r).filter (fun hc => decide (hc.1.1 ∉ ds))).map Prod.snd

/-- `TransformerSelectColumns.transform`: select mode validates that all
named columns exist (`ValueError` listing the missing ones) and builds
`data[self._columns]` — the named columns in the given order; drop mode
only warns about absent names and builds `data.drop(columns=self._drop,
errors='ignore')`. -/
def TransformerSelectColumns.transform (cfg : SelectCfg) (data : Chunk) :
    Except Err Chunk :=
  match cfg with
  | .select cols =>
    if cols.any (fun n => decide (n ∉ data.colNames)) then
      .error (.columnNotFound "Columns not found in DataFrame")
    else
      .ok ⟨cols.map (fun n => (n, (data.header.getD (colIndex data n) (n, Dtype.other)).2)),
        data.rows.map (fun r => cols.map (fun n => r.getD (colIndex data n) Cell.na))⟩
  | .dropCols ds =>
    .ok ⟨data.header.filter (fun c => decide (c.1 ∉ ds)),
      data.rows.map (dropRowCells data.header ds)⟩

theorem getD_map_of_lt (f : α → β) (l : List α) (i : Nat) (h : i < l.length)
    (d : α) (d2 : β) : (l.map f).getD i d2 = f (l.getD i d) := by
  rw [List.getD_eq_getElem?_getD, List.getD_eq_getElem?_getD, List.getElem?_map,
    List.getElem?_eq_getElem h]
  simp

/-- C8: select mode yields exactly the named columns in the given order
(cell values taken from the source columns) and fails with
`ColumnNotFound` when a named column is absent; drop mode removes
exactly the named columns that exist, keeps the remaining columns in
input order, and tolerates absent names. -/
theorem select_columns_semantics (data : Chunk) :
    (∀ cols : List String, (∀ n ∈ cols, n ∈ data.colNames) →
      ∃ out : Chunk,
        TransformerSelectColumns.transform (.select cols) data = .ok out ∧
        out.colNames = cols ∧
        out.rows.length = data.rows.length ∧
        (∀ i j : Nat, i < data.rows.length → j < cols.length →
          out.cell i j = (data.rows.getD i []).getD (colIndex data (cols.getD j "")) Cell.na)) ∧
    (∀ cols : List String, (∃ n ∈ cols, n ∉ data.colNames) →
      ∃ msg, TransformerSelectColumns.transform (.select cols) data =
        .error (.columnNotFound msg)) ∧
    (∀ ds : List String,
      ∃ out : Chunk,
        TransformerSelectColumns.transform (.dropCols ds) data = .ok out ∧
        out.colNames = data.colNames.filter (fun n => decide (n ∉ ds))) := by
  refine ⟨?_, ?_, ?_⟩
  · intro cols hall
    have hno : cols.any (fun n => decide (n ∉ data.colNames)) = false := by
      rw [Bool.eq_false_iff]
      intro habs
      obtain ⟨n, hn, hdec⟩ := List.any_eq_true.mp habs
      rw [decide_eq_true_eq] at hdec
      exact hdec (hall n hn)
    refine ⟨⟨cols.map (fun n => (n, (data.header.getD (colIndex data n) (n, Dtype.other)).2)),
      data.rows.map (fun r => cols.map (fun n => r.getD (colIndex data n) Cell.na))⟩,
      ?_, ?_, ?_, ?_⟩
    · rw [TransformerSelectColumns.transform, if_neg (by rw [hno]; simp)]
    · rw [Chunk.colNames]
      simp only [List.map_map]
      rw [show ((fun p : String × Dtype => p.1) ∘
          (fun n => (n, (data.header.getD (colIndex data n) (n, Dtype.other)).2))) = id
        from rfl]
      exact List.map_id cols
    · simp
    · intro i j hi hj
      rw [Chunk.cell]
      simp only
      rw [getD_map_of_lt _ data.rows i hi []]
      rw [getD_map_of_lt _ cols j hj ""]
  · intro cols hex
    obtain ⟨n, hn, hnot⟩ := hex
    refine ⟨"Columns not found in DataFrame", ?_⟩
    rw [TransformerSelectColumns.transform, if_pos]
    rw [List.any_eq_true]
    exact ⟨n, hn, by rw [decide_eq_true_eq]; exact hnot⟩
  · intro ds
    refine ⟨_, rfl, ?_⟩
    rw [Chunk.colNames, Chunk.colNames]
    simp only
    rw [List.filter_map]
    apply congrArg
    apply List.filter_congr
    intro c _
    rfl

/-- Witness for C8: selecting `["C","A"]` from a three-column chunk
yields exactly those two columns in that order, and selecting a missing
column fails with `ColumnNotFound`. -/
theorem select_columns_semantics_witness :
    (∀ n ∈ (["C", "A"] : List String),
      n ∈ (⟨[("A", Dtype.numeric), ("B", Dtype.numeric), ("C", Dtype.numeric)],
        [[Cell.num 1, Cell.num 2, Cell.num 3]]⟩ : Chunk).colNames) ∧
    (∃ out : Chunk,
      TransformerSelectColumns.transform (.select ["C", "A"])
        ⟨[("A", Dtype.numeric), ("B", Dtype.numeric), ("C", Dtype.numeric)],
          [[Cell.num 1, Cell.num 2, Cell.num 3]]⟩ = .ok out ∧
      out.colNames = ["C", "A"]) ∧
    (∃ msg, TransformerSelectColumns.transform (.select ["Z"])
        ⟨[("A", Dtype.numeric), ("B", Dtype.numeric), ("C", Dtype.numeric)],
          [[Cell.num 1, Cell.num 2, Cell.num 3]]⟩ = .error (.columnNotFound msg)) := by
  have h := select_columns_semantics
    ⟨[("A", Dtype.numeric), ("B", Dtype.numeric), ("C", Dtype.numeric)],
      [[Cell.num 1, Cell.num 2, Cell.num 3]]⟩
  have hin : ∀ n ∈ (["C", "A"] : List String),
      n ∈ (⟨[("A", Dtype.numeric), ("B", Dtype.numeric), ("C", Dtype.numeric)],
        [[Cell.num 1, Cell.num 2, Cell.num 3]]⟩ : Chunk).colNames := by decide
  obtain ⟨out, hok, hnames, _, _⟩ := h.1 ["C", "A"] hin
  refine ⟨hin, ⟨out, hok, hnames⟩, ?_⟩
  exact h.2.1 ["Z"] ⟨"Z", by simp, by decide⟩

/-! ## Group-by aggregation (`transformers.py`, `TransformerGroupByAggregate`) -/

/-- An aggregation request for one column: one function name
(`{'sales': 'sum'}`) or a list of them (`{'price': ['mean', 'max']}`). -/
inductive AggSpec where
  | one : String → AggSpec
  | many : List String → AggSpec
deriving DecidableEq, Repr

/-- The configuration stored by `TransformerGroupByAggregate.__init__`
(a single group-by string arrives already wrapped into a list; unknown
aggregation function names are only warned about). -/
structure GroupByCfg where
  group_by : List String
  aggregations : List (String × AggSpec)
  reset_index : Bool

/-- The valid aggregation function names. -/
def validAggFuncs : List String :=
  ["sum", "mean", "median", "min", "max", "count", "std", "var", "first", "last"]

/-- The numeric values of a cell list, missing cells skipped (pandas
aggregations ignore NaN). -/
def numValues (cells : List Cell) : List ℚ :=
  cells.filterMap (fun c => match c with | .num q => some q | _ => none)

/-- Ascending sort used for the median. -/
def sortedNumValues (cells : List Cell) : List ℚ :=
  (numValues cells).mergeSort (fun a b => decide (a ≤ b))

/-- One aggregation function applied to the cells of one column inside
one group, over rationals (the numeric embedding of the pandas
aggregations; non-numeric cells are ignored like NaN).  A name outside
`validAggFuncs` — which the constructor only warns about and pandas
would reject inside `agg` — yields a missing cell; the theorems below
only rely on valid names. -/
def applyAgg (f : String) (cells : List Cell) : Cell :=
  let vs := numValues cells
  if f = "sum" then .num vs.sum
  else if f = "mean" then
    (if vs.length = 0 then .na else .num (vs.sum / vs.length))
  else if f = "median" then
    (let s := sortedNumValues cells
     if s.length = 0 then .na
     else if s.length % 2 = 1 then .num (s.getD (s.length / 2) 0)
     else .num ((s.getD (s.length / 2 - 1) 0 + s.getD (s.length / 2) 0) / 2))
  else if f = "min" then
    (match vs with
     | [] => .na
     | v :: rest => .num (rest.foldl min v))
  else if f = "max" then
    (match vs with
     | [] => .na
     | v :: rest => .num (rest.foldl max v))
  else if f = "count" then .num (cells.countP (fun c => !c.isNA))
  else if f = "std" ∨ f = "var" then
    (if vs.length < 2 then .na
     else
       let μ := vs.sum / vs.length
       let v2 := (vs.map (fun x => (x - μ) ^ 2)).sum / (vs.length - 1 : ℚ)
       .num v2)
  else if f = "first" then ((cells.filter (fun c => !c.isNA)).head?.getD .na)
  else if f = "last" then ((cells.filter (fun c => !c.isNA)).getLast?.getD .na)
  else .na

/-- The tuple of group-key cells of one row. -/
def keyTuple (cfg : GroupByCfg) (data : Chunk) (r : Row) : List Cell :=
  cfg.group_by.map (fun n => r.getD (colIndex data n) Cell.na)

/-- The rows pandas actually groups: `groupby` drops, by default
(`dropna=True`), every row with a missing cell in a key column. -/
def groupableRows (cfg : GroupByCfg) (data : Chunk) : List Row :=
  data.rows.filter (fun r => (keyTuple cfg data r).all (fun c => !c.isNA))

/-- The distinct key combinations, in order of first appearance (the
count is what the spec constrains; pandas additionally sorts groups). -/
def distinctKeys (cfg : GroupByCfg) (data : Chunk) : List (List Cell) :=
  ((groupableRows cfg data).map (keyTuple cfg data)).dedup

/-- `True` when any aggregation value is a list, which makes pandas
return MultiIndex columns that the code then flattens to
`<original>_<function>`. -/
def anyMulti (aggs : List (String × AggSpec)) : Bool :=
  aggs.any (fun a => match a.2 with | .many _ => true | .one _ => false)

/-- The aggregated column names of the output. -/
def aggHeaderNames (aggs : List (String × AggSpec)) : List String :=
  if anyMulti aggs then
    aggs.flatMap (fun p => match p.2 with
      | .one f => [p.1 ++ "_" ++ f]
      | .many fs => fs.map (fun f => p.1 ++ "_" ++ f))
  else
    aggs.map Prod.fst

/-- The aggregated cells of one group. -/
def aggCells (cfg : GroupByCfg) (data : Chunk) (grp : List Row) : Row :=
  cfg.aggregations.flatMap (fun p =>
    let cells := grp.map (fun r => r.getD (colIndex data p.1) Cell.na)
    match p.2 with
    | .one f => [applyAgg f cells]
    | .many fs => fs.map (fun f => applyAgg f cells))

/-- The output header: the key columns (when `reset_index`) followed by
the aggregated columns. -/
def groupByHeader (cfg : GroupByCfg) (data : Chunk) : List (String × Dtype) :=
  (if cfg.reset_index then
    cfg.group_by.map (fun n => (n, (data.header.getD (colIndex data n) (n, Dtype.other)).2))
   else []) ++
  (aggHeaderNames cfg.aggregations).map (fun n => (n, Dtype.numeric))

/-- One output row per distinct key combination. -/
def groupByRow (cfg : GroupByCfg) (data : Chunk) (k : List Cell) : Row :=
  (if cfg.reset_index then k else []) ++
    aggCells cfg data ((groupableRows cfg data).filter (fun r => decide (keyTuple cfg data r = k)))

/-- `TransformerGroupByAggregate.transform`: validates that the group-by
columns exist, then that the aggregation columns exist (`ValueError`
naming the missing set), then performs `data.groupby(...).agg(...)`
(plus `reset_index` and column flattening). -/
def TransformerGroupByAggregate.transform (cfg : GroupByCfg) (data : Chunk) :
    Except Err Chunk :=
  if cfg.group_by.any (fun n => decide (n ∉ data.colNames)) then
    .error (.columnNotFound "Group-by columns not found")
  else if (cfg.aggregations.map Prod.fst).any (fun n => decide (n ∉ data.colNames)) then
    .error (.columnNotFound "Aggregation columns not found")
  else
    .ok ⟨groupByHeader cfg data, (distinctKeys cfg data).map (groupByRow cfg data)⟩

/-- C7: when every grouping and aggregation column exists,
`GroupByAggregate` succeeds and produces exactly one output row per
distinct combination of group-key values present in the input (rows
whose key cells are all non-missing; pandas' default `dropna=True`
excludes rows with a missing key); when a grouping or aggregation column
is absent it fails with `ColumnNotFound`. -/
theorem groupby_aggregate_row_count (cfg : GroupByCfg) (data : Chunk) :
    ((∀ n ∈ cfg.group_by, n ∈ data.colNames) →
     (∀ p ∈ cfg.aggregations, p.1 ∈ data.colNames) →
      ∃ out : Chunk,
        TransformerGroupByAggregate.transform cfg data = .ok out ∧
        out.rows.length = (distinctKeys cfg data).length) ∧
    ((∃ n ∈ cfg.group_by, n ∉ data.colNames) ∨
     (∃ p ∈ cfg.aggregations, p.1 ∉ data.colNames) →
      ∃ msg, TransformerGroupByAggregate.transform cfg data =
        .error (.columnNotFound msg)) := by
  constructor
  · intro hg ha
    have hg' : cfg.group_by.any (fun n => decide (n ∉ data.colNames)) = false := by
      rw [Bool.eq_false_iff]
      intro habs
      obtain ⟨n, hn, hdec⟩ := List.any_eq_true.mp habs
      rw [decide_eq_true_eq] at hdec
      exact hdec (hg n hn)
    have ha' : (cfg.aggregations.map Prod.fst).any (fun n => decide (n ∉ data.colNames)) = false := by
      rw [Bool.eq_false_iff]
      intro habs
      obtain ⟨n, hn, hdec⟩ := List.any_eq_true.mp habs
      rw [decide_eq_true_eq] at hdec
      obtain ⟨p, hp, hpn⟩ := List.mem_map.mp hn
      rw [← hpn] at hdec
      exact hdec (ha p hp)
    refine ⟨⟨groupByHeader cfg data, (distinctKeys cfg data).map (groupByRow cfg data)⟩, ?_, ?_⟩
    · rw [TransformerGroupByAggregate.transform, if_neg (by rw [hg']; simp),
        if_neg (by rw [ha']; simp)]
    · simp
  · intro hmiss
    rw [TransformerGroupByAggregate.transform]
    rcases hmiss with ⟨n, hn, hnot⟩ | ⟨p, hp, hnot⟩
    · refine ⟨"Group-by columns not found", ?_⟩
      rw [if_pos]
      rw [List.any_eq_true]
      exact ⟨n, hn, by rw [decide_eq_true_eq]; exact hnot⟩
    · by_cases hg : cfg.group_by.any (fun n => decide (n ∉ data.colNames)) = true
      · exact ⟨"Group-by columns not found", by rw [if_pos hg]⟩
      · refine ⟨"Aggregation columns not found", ?_⟩
        rw [if_neg (by rw [Bool.not_eq_true] at hg; rw [hg]; simp), if_pos]
        rw [List.any_eq_true]
        refine ⟨p.1, List.mem_map.mpr ⟨p, hp, rfl⟩, by rw [decide_eq_true_eq]; exact hnot⟩

/-- Witness for C7: grouping a four-row chunk with two distinct
categories (and one row with a missing key, which pandas drops) yields
two output rows; aggregating over a missing column fails. -/
theorem groupby_aggregate_row_count_witness :
    (∀ n ∈ ["cat"], n ∈ (⟨[("cat", Dtype.text), ("x", Dtype.numeric)],
        [[Cell.str "a".data, Cell.num 1], [Cell.str "b".data, Cell.num 2],
         [Cell.str "a".data, Cell.num 3], [Cell.na, Cell.num 4]]⟩ : Chunk).colNames) ∧
    (∀ p ∈ [("x", AggSpec.one "sum")],
      p.1 ∈ (⟨[("cat", Dtype.text), ("x", Dtype.numeric)],
        [[Cell.str "a".data, Cell.num 1], [Cell.str "b".data, Cell.num 2],
         [Cell.str "a".data, Cell.num 3], [Cell.na, Cell.num 4]]⟩ : Chunk).colNames) ∧
    (∃ out : Chunk,
      TransformerGroupByAggregate.transform ⟨["cat"], [("x", AggSpec.one "sum")], true⟩
        ⟨[("cat", Dtype.text), ("x", Dtype.numeric)],
          [[Cell.str "a".data, Cell.num 1], [Cell.str "b".data, Cell.num 2],
           [Cell.str "a".data, Cell.num 3], [Cell.na, Cell.num 4]]⟩ = .ok out ∧
      out.rows.length = 2) ∧
    (∃ msg, TransformerGroupByAggregate.transform ⟨["cat"], [("y", AggSpec.one "sum")], true⟩
        ⟨[("cat", Dtype.text), ("x", Dtype.numeric)],
          [[Cell.str "a".data, Cell.num 1], [Cell.str "b".data, Cell.num 2],
           [Cell.str "a".data, Cell.num 3], [Cell.na, Cell.num 4]]⟩ =
      .error (.columnNotFound msg)) := by
  have h := groupby_aggregate_row_count ⟨["cat"], [("x", AggSpec.one "sum")], true⟩
    ⟨[("cat", Dtype.text), ("x", Dtype.numeric)],
      [[Cell.str "a".data, Cell.num 1], [Cell.str "b".data, Cell.num 2],
       [Cell.str "a".data, Cell.num 3], [Cell.na, Cell.num 4]]⟩
  have h2 := groupby_aggregate_row_count ⟨["cat"], [("y", AggSpec.one "sum")], true⟩
    ⟨[("cat", Dtype.text), ("x", Dtype.numeric)],
      [[Cell.str "a".data, Cell.num 1], [Cell.str "b".data, Cell.num 2],
       [Cell.str "a".data, Cell.num 3], [Cell.na, Cell.num 4]]⟩
  have hg : ∀ n ∈ ["cat"], n ∈ (⟨[("cat", Dtype.text), ("x", Dtype.numeric)],
      [[Cell.str "a".data, Cell.num 1], [Cell.str "b".data, Cell.num 2],
       [Cell.str "a".data, Cell.num 3], [Cell.na, Cell.num 4]]⟩ : Chunk).colNames := by
    decide
  have ha : ∀ p ∈ [("x", AggSpec.one "sum")],
      p.1 ∈ (⟨[("cat", Dtype.text), ("x", Dtype.numeric)],
        [[Cell.str "a".data, Cell.num 1], [Cell.str "b".data, Cell.num 2],
         [Cell.str "a".data, Cell.num 3], [Cell.na, Cell.num 4]]⟩ : Chunk).colNames := by
    intro p hp
    simp only [List.mem_singleton] at hp
    subst hp
    decide
  obtain ⟨out, hok, hlen⟩ := h.1 hg ha
  refine ⟨hg, ha, ⟨out, hok, ?_⟩, ?_⟩
  · rw [hlen]
    decide
  · apply h2.2
    right
    refine ⟨("y", AggSpec.one "sum"), by simp, by decide⟩

/-! ## Numeric imputation (`transformers.py`, `TransformerImputeMissingsNumeric`) -/

/-- `TransformerImputeMissingsNumeric.__init__`: stores the strategy.
An invalid strategy is only logged (`logger.error`); no exception is
raised, so construction always succeeds. -/
def TransformerImputeMissingsNumeric.init (strategy : String) : Except Err String :=
  .ok strategy

/-- The indexes of the numeric columns
(`select_dtypes(include='number')`). -/
def numericIdxs (data : Chunk) : List Nat :=
  (List.range data.ncols).filter
    (fun j => decide ((data.header.getD j ("", Dtype.other)).2 = Dtype.numeric))

/-- `data[numeric_cols].isnull().sum().sum()`: the number of missing
cells in numeric columns. -/
def missingNumericCount (data : Chunk) : Nat :=
  (data.rows.map (fun r => (numericIdxs data).countP (fun j => (r.getD j Cell.na).isNA))).sum

/-- The cells of column `j`, top to bottom. -/
def columnCells (data : Chunk) (j : Nat) : List Cell :=
  data.rows.map (fun r => r.getD j Cell.na)

/-- The per-column fill values of `data.mean(numeric_only=True)` /
`data.median(numeric_only=True)`: defined on numeric columns with at
least one value (an all-missing column's mean is NaN, and `fillna` with
NaN fills nothing). -/
def numericAggFills (f : String) (data : Chunk) : List (Option Cell) :=
  (List.range data.ncols).map (fun j =>
    if (data.header.getD j ("", Dtype.other)).2 = Dtype.numeric then
      match applyAgg f (columnCells data j) with
      | .na => none
      | c => some c
    else none)

/-- Order used by pandas to break ties in `mode()` (the modes are sorted
ascending and `iloc[0]` takes the smallest): numbers before strings,
numbers numerically, strings lexicographically. -/
def cellLe : Cell → Cell → Bool
  | .na, _ => true
  | _, .na => false
  | .num a, .num b => decide (a ≤ b)
  | .num _, .str _ => true
  | .str _, .num _ => false
  | .str a, .str b => decide (String.mk a ≤ String.mk b)

/-- The most frequent non-missing value of a column, smallest first on
ties (`data.mode().iloc[0]`); `none` when the column has no values. -/
def modeOf (cells : List Cell) : Option Cell :=
  let present := cells.filter (fun c => !c.isNA)
  match present.dedup with
  | [] => none
  | c :: rest => some (rest.foldl (fun b v =>
      if present.count v > present.count b ∨
        (present.count v = present.count b ∧ cellLe v b) then v else b) c)

/-- The per-column fill values of `data.mode().iloc[0]` (all columns,
not only the numeric ones). -/
def modeFills (data : Chunk) : List (Option Cell) :=
  (List.range data.ncols).map (fun j => modeOf (columnCells data j))

/-- `fillna` on one row with per-column fill values. -/
def fillRow (fills : List (Option Cell)) (r : Row) : Row :=
  List.zipWith (fun f c => if c.isNA then f.getD c else c) fills r

/-- `TransformerImputeMissingsNumeric.transform`: returns the chunk
unchanged when the numeric columns have no missing cell; otherwise
imputes per strategy, and raises `ValueError` for an unknown strategy
only on this path. -/
def TransformerImputeMissingsNumeric.transform (strategy : String) (data : Chunk) :
    Except Err Chunk :=
  if missingNumericCount data = 0 then .ok data
  else if strategy = "mean" then
    .ok { data with rows := data.rows.map (fillRow (numericAggFills "mean" data)) }
  else if strategy = "median" then
    .ok { data with rows := data.rows.map (fillRow (numericAggFills "median" data)) }
  else if strategy = "mode" then
    .ok { data with rows := data.rows.map (fillRow (modeFills data)) }
  else
    .error (.invalidConfiguration ("Unknown imputation strategy: " ++ strategy))

/-- C4, evaluated at the failing input: constructing
`TransformerImputeMissingsNumeric('invalid')` succeeds (the invalid
strategy is only logged, although the repository's own test expects a
`ValueError` here), and `transform` silently returns the chunk whenever
the numeric columns have no missing cell — the unknown strategy is
rejected only when an imputation would actually run. -/
theorem impute_numeric_invalid_strategy_not_rejected :
    TransformerImputeMissingsNumeric.init "invalid" = .ok "invalid" ∧
    TransformerImputeMissingsNumeric.transform "invalid"
        ⟨[("A", Dtype.numeric)], [[Cell.num 1], [Cell.num 2], [Cell.num 3]]⟩ =
      .ok ⟨[("A", Dtype.numeric)], [[Cell.num 1], [Cell.num 2], [Cell.num 3]]⟩ ∧
    TransformerImputeMissingsNumeric.transform "invalid"
        ⟨[("A", Dtype.numeric)], [[Cell.num 1], [Cell.na], [Cell.num 3]]⟩ =
      .error (.invalidConfiguration "Unknown imputation strategy: invalid") := by
  refine ⟨rfl, ?_, ?_⟩ <;> rfl

end Unidad1
